import Mathlib

/-!
Shallow embedding of `mydb-client`'s `Document` (src/document.js): the
key/operation-kind event namespacing, the operation translator `$op`, the
readyState lifecycle (`ready`, `load`, `destroy`) and the convenience helper
`each`.  Listener callbacks are defunctionalised (`Cb`); the external
collaborators (mongo-query diff, dotted-path `dot.get`, superagent, Manager)
are abstracted exactly at the boundaries the source uses them.
-/

namespace MydbClient

/-- JS values as they flow through the document: payload values, operation
values and emission payloads. -/
inductive JSVal where
  | null
  | num (n : Int)
  | str (s : String)
  | arr (elems : List JSVal)

/-- JS string coercion as used by `val + '$set'` and `this.get(val)` in the
`$unset` branch of `$op` (the diff produces a string path there; the other
cases follow JS `String(v)` conventions). -/
def jsToKeyString : JSVal → String
  | .null => "null"
  | .num n => toString n
  | .str s => s
  | .arr _ => ""

/-- Defunctionalised callbacks: user-supplied functions are identified by a
number; `getWrap key inner` is the closure `function(){ inner(get()); }`
created inside `get(key, inner)`; `eachBody key f` is the anonymous callback
`each` passes to `get`. -/
inductive Cb where
  | user (id : Nat)
  | getWrap (key : String) (inner : Cb)
  | eachBody (key : String) (f : Nat)
deriving DecidableEq, Repr

/-- One listener registration of the Emitter mixin: event key, callback, and
whether it was registered through `once`. -/
structure Reg where
  event : String
  fn : Cb
  once : Bool
deriving DecidableEq, Repr

/-- The Emitter mixin's listener store, in registration order. -/
abbrev EmState := List Reg

def emitOn (st : EmState) (e : String) (f : Cb) : EmState := st ++ [⟨e, f, false⟩]

def emitOnce (st : EmState) (e : String) (f : Cb) : EmState := st ++ [⟨e, f, true⟩]

def emitOff (st : EmState) (e : String) (f : Cb) : EmState :=
  st.filter (fun r => !(r.event == e && r.fn == f))

def emListeners (st : EmState) (e : String) : List Cb :=
  (st.filter (fun r => r.event == e)).map Reg.fn

def emHasListeners (st : EmState) (e : String) : Bool :=
  !(emListeners st e).isEmpty

/-- `op.replace(/^\$/, '')`: strip a single leading dollar sign. -/
def normalizeOp (op : String) : String :=
  match op.data with
  | '$' :: rest => String.mk rest
  | _ => op

/-- `key + '$' + op.replace(/^\$/, '')`: the composite subscription key. -/
def compositeKey (key op : String) : String := key ++ "$" ++ normalizeOp op

/-- `Document.prototype.on`: when the second argument is a string the
composite key is used (`'string' == type(op)`); otherwise the second argument
is the callback and the plain key is used. -/
def docOn (st : EmState) (key : String) (op : Option String) (f : Cb) : EmState :=
  match op with
  | some o => emitOn st (compositeKey key o) f
  | none => emitOn st key f

/-- `Document.prototype.once`, same key dispatch as `docOn`. -/
def docOnce (st : EmState) (key : String) (op : Option String) (f : Cb) : EmState :=
  match op with
  | some o => emitOnce st (compositeKey key o) f
  | none => emitOnce st key f

/-- `Document.prototype.off` / `removeListener`, same key dispatch. -/
def docOff (st : EmState) (key : String) (op : Option String) (f : Cb) : EmState :=
  match op with
  | some o => emitOff st (compositeKey key o) f
  | none => emitOff st key f

/-- `Document.prototype.listeners`: the guard is `if (op)` — JS truthiness —
so an empty operation-kind string leaves the key un-namespaced. -/
def docListeners (st : EmState) (key : String) (op : Option String) : List Cb :=
  match op with
  | some o => if o = "" then emListeners st key else emListeners st (compositeKey key o)
  | none => emListeners st key

/-- `Document.prototype.hasListeners`, with the same `if (op)` truthiness
guard as `listeners`. -/
def docHasListeners (st : EmState) (key : String) (op : Option String) : Bool :=
  match op with
  | some o => if o = "" then emHasListeners st key else emHasListeners st (compositeKey key o)
  | none => emHasListeners st key

/-- `['A','l','l'].isPrefixOf`-based infix test: `/All/.test(type)`. -/
def hasAllInfix : List Char → Bool
  | [] => false
  | c :: t => List.isPrefixOf ['A', 'l', 'l'] (c :: t) || hasAllInfix t

def matchesAll (op : String) : Bool := hasAllInfix op.data

/-- Remove the first occurrence of `All`: `type.replace(/All/, '')`. -/
def removeAllOnce : List Char → List Char
  | [] => []
  | c :: t =>
    if List.isPrefixOf ['A', 'l', 'l'] (c :: t) then (c :: t).drop 3
    else c :: removeAllOnce t

def stripAllOnce (op : String) : String := String.mk (removeAllOnce op.data)

/-- One emitted event: key and payload (the raw log entry also passed along
as a second argument is determined by the entry and omitted). -/
abbrev Emission := String × JSVal

/-- One entry of the operation log returned by `query(this, data[0],
data[1])` (mongo-query): dotted key, operation kind (with its `$`), value. -/
structure LogEntry where
  key : String
  op : String
  value : JSVal

/-- What `val.length` / `val[0]` see in the `All` loop: array elements, or a
string's characters (JS strings are indexable); a number has no `length`, so
the loop exits at once. -/
def jsElems : JSVal → List JSVal
  | .arr l => l
  | .str s => s.data.map (fun c => JSVal.str (String.mk [c]))
  | _ => []

/-- The `All`-expansion loop of `$op`, exactly as written:
`for (var ii = 0; ii < val.length; i++) emit(key + type.replace(/All/, ''),
val[ii], obj)`.  The update steps the *outer* log index `i`, so `ii` stays
`0`: the guard `ii < val.length` never becomes false on a non-empty `val`
and every iteration emits `val[0]`.  `fuel` bounds the number of iterations
we unfold; the returned flag is `true` when the loop exited by itself within
that bound. -/
def allLoopRun (emitKey : String) (val : List JSVal) : Nat → List Emission × Bool
  | 0 => if 0 < val.length then ([], false) else ([], true)
  | fuel + 1 =>
    if 0 < val.length then
      let r := allLoopRun emitKey val fuel
      ((emitKey, val.headD JSVal.null) :: r.1, r.2)
    else ([], true)

/-- The `'$pop' == type` branch: express `$pop` as a `$pull`. -/
def popEmits (e : LogEntry) : List Emission :=
  if e.op = "$pop" then [(e.key ++ "$pull", e.value)] else []

/-- The `'$unset' == type` branch: express `$rename` as `$unset` + `$set`;
`getVal` is the dotted-path read `this.get(...)` on the already-mutated
document (mongo-query applies every mutation before the loop runs). -/
def unsetEmits (getVal : String → JSVal) (e : LogEntry) : List Emission :=
  if e.op = "$unset" then
    [(e.key ++ "$unset", JSVal.null),
     (jsToKeyString e.value ++ "$set", getVal (jsToKeyString e.value))]
  else []

/-- The emission loop of `Document.prototype.$op` over the log returned by
`query`.  Per entry: the `$pop` and `$unset` extra emissions, then either the
`All` expansion loop or the single `key + type` emission, then the plain
`key` emission carrying the freshly read current value.  The flag is `false`
when the `All` loop failed to finish within `fuel` iterations (in the source
it then never finishes at all, and the remaining entries are never reached,
which is why processing stops there). -/
def opRun (getVal : String → JSVal) (fuel : Nat) : List LogEntry → List Emission × Bool
  | [] => ([], true)
  | e :: rest =>
    let pre := popEmits e ++ unsetEmits getVal e
    if matchesAll e.op then
      let lr := allLoopRun (e.key ++ stripAllOnce e.op) (jsElems e.value) fuel
      if lr.2 then
        let r := opRun getVal fuel rest
        (pre ++ lr.1 ++ [(e.key, getVal e.key)] ++ r.1, r.2)
      else
        (pre ++ lr.1, false)
    else
      let r := opRun getVal fuel rest
      (pre ++ [(e.key ++ e.op, e.value)] ++ [(e.key, getVal e.key)] ++ r.1, r.2)

/-- Errors a call can throw: `new Error(msg)`, or the TypeError raised by a
member access on `undefined`. -/
inductive JsError where
  | errorMsg (msg : String)
  | typeError
deriving DecidableEq, Repr

/-- `manager.socket`, used to resolve path-absolute URLs under node. -/
structure Socket where
  secure : Bool
  host : String
  port : Nat

/-- The `Document` state: the lifecycle fields the source assigns (note that
`xhrField` models the property `this.xhr`, which no statement in the source
ever assigns — the request is stored in `this.$xhr` / `dollarXhr`), the
Emitter listener store, the queue of callbacks handed to `setTimeout`, the
trace of event keys emitted by the readyState setter, and the document's
field data abstracted as the dotted-path read `dot.get`. -/
structure Document where
  readyState : String
  urlField : Option String
  sidField : Option String
  dollarXhr : Option Nat
  xhrField : Option Nat
  listenersSt : EmState
  pending : List Cb
  emitted : List String
  socket : Socket
  fields : String → JSVal

/-- The `Document(manager)` constructor: `$_readyState = 'unloaded'`. -/
def mkDocument (sock : Socket) (flds : String → JSVal) : Document :=
  ⟨"unloaded", none, none, none, none, [], [], [], sock, flds⟩

/-- `$readyState(s)` when called with a state string: store it and emit
`$state` and `$state:<s>`. -/
def setReadyState (d : Document) (s : String) : Document :=
  { d with readyState := s, emitted := d.emitted ++ ["$state", "$state:" ++ s] }

/-- Source text (abridged) of the `$readyState` accessor function: `ready`'s
guard compares the string literal against this function value itself. -/
def readyStateAccessorSrc : String :=
  "function (s)\x7b if (s) \x7b this.$_readyState = s; this.emit(...); return this; \x7d return this.$_readyState; \x7d"

/-- JS loose equality between a string literal and a function value: the
function is coerced through `toString` to its source text, so the comparison
holds only when that source text equals the literal. -/
def strEqFn (lit src : String) : Bool := lit == src

/-- `Document.prototype.ready`: the guard is written
`'loaded' == this.$readyState`, comparing the string against the accessor
function itself rather than against `this.$readyState()`, so the comparison
is a string/function loose equality on the accessor's source text.  When it
holds, `setTimeout(fn, 0)`; otherwise `this.once('$state:loaded', fn)` (the
second argument is a function, so `once` uses the plain key). -/
def ready (d : Document) (f : Cb) : Document :=
  if strEqFn "loaded" readyStateAccessorSrc then
    { d with pending := d.pending ++ [f] }
  else
    { d with listenersSt := emitOnce d.listenersSt "$state:loaded" f }

/-- `'/' == url[0]` — false on the empty string, whose `url[0]` is
undefined. -/
def firstCharSlash (url : String) : Bool :=
  match url.data with
  | c :: _ => c = '/'
  | [] => false

/-- Result of one synchronous run of `load`: the post-state (the pre-state
when an error is thrown before any assignment), the thrown error if any, and
the URL handed to `request.get`. -/
structure LoadOutcome where
  doc : Document
  err : Option JsError
  fetchUrl : Option String

/-- `Document.prototype.load`: throw unless `unloaded`; set state `loading`;
under node prefix a path-absolute URL with the socket's scheme/host/port;
record `$_url`; append the `my=1&t=<now>` marker, with `'?'` only when the
URL has no `'?'` yet (`~url.indexOf('?') ? '' : '?'`); store the request in
`$xhr`; and finally `if (fn) this.ready(fn)`. -/
def load (isNode : Bool) (now reqId : Nat) (d : Document) (url : String)
    (f : Option Cb) : LoadOutcome :=
  if d.readyState ≠ "unloaded" then
    ⟨d, some (JsError.errorMsg "Trying to load resource, but doc is not unloaded"), none⟩
  else
    let d1 := setReadyState d "loading"
    let url1 :=
      if isNode && firstCharSlash url then
        (if d.socket.secure then "https" else "http") ++ "://" ++
          d.socket.host ++ ":" ++ toString d.socket.port ++ url
      else url
    let d2 := { d1 with urlField := some url1 }
    let fUrl := url1 ++ (if url1.data.contains '?' then "" else "?") ++ "my=1&t=" ++ toString now
    let d3 := { d2 with dollarXhr := some reqId }
    let d4 := match f with
      | some cb => ready d3 cb
      | none => d3
    ⟨d4, none, some fUrl⟩

/-- Result of one synchronous run of `destroy`: post-state, thrown error if
any, and — when the default branch ran — the sid passed to
`manager.unsubscribe` (`none` inside when `$_sid` was never assigned). -/
structure DestroyOutcome where
  doc : Document
  err : Option JsError
  unsubCall : Option (Option String)

/-- `Document.prototype.destroy`: in the `'loading'` case the guard reads
`this.xhr.abort`, and `this.xhr` — unlike `this.$xhr` — is never assigned,
so the member access throws a TypeError before `$xhr` is touched (were the
property present, the source would call `this.$xhr.abort()` and clear
`$xhr`); `'unloading'`/`'unloaded'` throw; the default branch sets state
`unloading`, registers a one-shot `unsubscribe` listener on the manager
(which later advances the state to `unloaded` and runs the callback) and
calls `manager.unsubscribe(this.$sid(), this)`. -/
def destroy (d : Document) : DestroyOutcome :=
  if d.readyState = "loading" then
    match d.xhrField with
    | none => ⟨d, some JsError.typeError, none⟩
    | some _ => ⟨{ d with dollarXhr := none }, none, none⟩
  else if d.readyState = "unloading" ∨ d.readyState = "unloaded" then
    ⟨d, some (JsError.errorMsg "Trying to destroy invalid resource"), none⟩
  else
    ⟨setReadyState d "unloading", none, some d.sidField⟩

/-- `get(key, fn)` with a callback: `this.ready(function(){ fn(get()); })`. -/
def getWithCb (d : Document) (key : String) (f : Cb) : Document :=
  ready d (Cb.getWrap key f)

/-- `Document.prototype.each`: `this.get(key, function(v){ if ('array' ==
type(v)) v.forEach(fn); self.on(key, 'push', fn); })`. -/
def each (d : Document) (key : String) (f : Nat) : Document :=
  getWithCb d key (Cb.eachBody key f)

def isArr : JSVal → Bool
  | .arr _ => true
  | _ => false

/-- Run a defunctionalised callback on a value: a user callback records its
invocation; `get`'s wrapper ignores its argument and calls the inner callback
with the dotted-path read; `each`'s body calls `fn` per element when the
value is an array and always registers `on(key, 'push', fn)`. -/
def runCb (d : Document) : Cb → JSVal → Document × List (Nat × JSVal)
  | .user i, v => (d, [(i, v)])
  | .getWrap key inner, _ => runCb d inner (d.fields key)
  | .eachBody key f, v =>
    ({ d with listenersSt := docOn d.listenersSt key (some "push") (Cb.user f) },
     match v with
     | .arr l => l.map (fun x => (f, x))
     | _ => [])

theorem strAppendAssoc (a b c : String) : a ++ b ++ c = a ++ (b ++ c) := by
  rcases a with ⟨la⟩; rcases b with ⟨lb⟩; rcases c with ⟨lc⟩
  show String.mk (la ++ lb ++ lc) = String.mk (la ++ (lb ++ lc))
  rw [List.append_assoc]

theorem allLoopRun_flag (ek : String) (v : JSVal) (l : List JSVal) :
    ∀ fuel, (allLoopRun ek (v :: l) fuel).2 = false := by
  intro fuel
  induction fuel with
  | zero => simp [allLoopRun]
  | succ n ih => simp [allLoopRun, ih]

theorem allLoopRun_length (ek : String) (v : JSVal) (l : List JSVal) :
    ∀ fuel, (allLoopRun ek (v :: l) fuel).1.length = fuel := by
  intro fuel
  induction fuel with
  | zero => simp [allLoopRun]
  | succ n ih => simp [allLoopRun, ih]

example : matchesAll "$pushAll" = true := by decide
example : matchesAll "$pullAll" = true := by decide
example : matchesAll "$unset" = false := by decide
example : matchesAll "$pop" = false := by decide
example : stripAllOnce "$pushAll" = "$push" := rfl
example : stripAllOnce "$pullAll" = "$pull" := rfl
example : normalizeOp "$set" = "set" := rfl
example : normalizeOp "set" = "set" := rfl

/-- Claim C1: for a `pushAll`/`pullAll` log entry the source is claimed to
emit one singular-kind notification per element, in element order.  In fact
the expansion loop steps the outer index (`i++` instead of `ii++`): at the
concrete entry `{key:'arr', op:'$pushAll', value:[1,2,3]}` every unfolded
iteration (five shown here) emits `arr$push` with the *first* element `1`,
and the loop has still not exited — not three notifications carrying
`1`, `2`, `3`. -/
theorem c1_pushAll_expansion_code_bug :
    opRun (fun _ => JSVal.null) 5
        [⟨"arr", "$pushAll", JSVal.arr [JSVal.num 1, JSVal.num 2, JSVal.num 3]⟩]
      = ([("arr$push", JSVal.num 1), ("arr$push", JSVal.num 1),
          ("arr$push", JSVal.num 1), ("arr$push", JSVal.num 1),
          ("arr$push", JSVal.num 1)], false) := rfl

/-- Claim C9: `$op` is claimed to terminate on every finite log; in fact a
single `pushAll`/`pullAll` entry with a non-empty array value never exits the
expansion loop — with any iteration budget the loop has not finished
(flag `false`) and it has already produced one emission per iteration, so the
emission count grows without bound. -/
theorem c9_op_nontermination_code_bug (g : String → JSVal) (fuel : Nat) (k : String)
    (v : JSVal) (l : List JSVal) (rest : List LogEntry) :
    (opRun g fuel (⟨k, "$pushAll", JSVal.arr (v :: l)⟩ :: rest)).2 = false ∧
    (opRun g fuel (⟨k, "$pullAll", JSVal.arr (v :: l)⟩ :: rest)).2 = false ∧
    (opRun g fuel [⟨k, "$pushAll", JSVal.arr (v :: l)⟩]).1.length = fuel := by
  have hpush : matchesAll "$pushAll" = true := by decide
  have hpull : matchesAll "$pullAll" = true := by decide
  have hpop : popEmits ⟨k, "$pushAll", JSVal.arr (v :: l)⟩ = [] := rfl
  have huns : unsetEmits g ⟨k, "$pushAll", JSVal.arr (v :: l)⟩ = [] := rfl
  refine ⟨?_, ?_, ?_⟩
  · simp [opRun, hpush, jsElems, allLoopRun_flag]
  · simp [opRun, hpull, jsElems, allLoopRun_flag]
  · simp [opRun, hpush, hpop, huns, jsElems, allLoopRun_flag, allLoopRun_length]

/-- Claim C5: an `unset` log entry `{key, op:'$unset', value}` makes `$op`
emit `key$unset` carrying `null` and `value$set` carrying the current value
read at the destination path (the full emission list for the entry also
contains the generic `key + type` and plain-key emissions). -/
theorem c5_unset_emissions (g : String → JSVal) (fuel : Nat) (k dest : String) :
    (opRun g fuel [⟨k, "$unset", JSVal.str dest⟩]).1
      = [(k ++ "$unset", JSVal.null), (dest ++ "$set", g dest),
         (k ++ "$unset", JSVal.str dest), (k, g k)] ∧
    (k ++ "$unset", JSVal.null) ∈ (opRun g fuel [⟨k, "$unset", JSVal.str dest⟩]).1 ∧
    (dest ++ "$set", g dest) ∈ (opRun g fuel [⟨k, "$unset", JSVal.str dest⟩]).1 := by
  have hAll : matchesAll "$unset" = false := by decide
  have hpop : popEmits ⟨k, "$unset", JSVal.str dest⟩ = [] := rfl
  have huns : unsetEmits g ⟨k, "$unset", JSVal.str dest⟩
      = [(k ++ "$unset", JSVal.null), (dest ++ "$set", g dest)] := rfl
  have hlist : (opRun g fuel [⟨k, "$unset", JSVal.str dest⟩]).1
      = [(k ++ "$unset", JSVal.null), (dest ++ "$set", g dest),
         (k ++ "$unset", JSVal.str dest), (k, g k)] := by
    simp [opRun, hAll, hpop, huns]
  exact ⟨hlist, by rw [hlist]; simp, by rw [hlist]; simp⟩

/-- Claim C6: a `pop` log entry `{key, op:'$pop', value}` makes `$op` emit
`key$pull` carrying the entry's value, and — like every entry — a plain
notification on `key` carrying the value read fresh from the (already
mutated) document, which is also the entry's last emission. -/
theorem c6_pop_emissions (g : String → JSVal) (fuel : Nat) (k : String) (v : JSVal) :
    (opRun g fuel [⟨k, "$pop", v⟩]).1
      = [(k ++ "$pull", v), (k ++ "$pop", v), (k, g k)] ∧
    (k ++ "$pull", v) ∈ (opRun g fuel [⟨k, "$pop", v⟩]).1 ∧
    (k, g k) ∈ (opRun g fuel [⟨k, "$pop", v⟩]).1 ∧
    (opRun g fuel [⟨k, "$pop", v⟩]).1.getLast? = some (k, g k) := by
  have hAll : matchesAll "$pop" = false := by decide
  have hpop : popEmits ⟨k, "$pop", v⟩ = [(k ++ "$pull", v)] := rfl
  have huns : unsetEmits g ⟨k, "$pop", v⟩ = [] := rfl
  have hlist : (opRun g fuel [⟨k, "$pop", v⟩]).1
      = [(k ++ "$pull", v), (k ++ "$pop", v), (k, g k)] := by
    simp [opRun, hAll, hpop, huns]
  exact ⟨hlist, by rw [hlist]; simp, by rw [hlist]; simp, by rw [hlist]; rfl⟩

theorem normalizeOp_no_dollar (s : String) (h : s.data.head? ≠ some '$') :
    normalizeOp s = s := by
  unfold normalizeOp
  split
  · rename_i rest heq
    rw [heq] at h
    simp at h
  · rfl

theorem normalizeOp_dollar (s : String) : normalizeOp ("$" ++ s) = s := by
  rcases s with ⟨l⟩
  rfl

theorem dollar_append_ne_empty (s : String) : "$" ++ s ≠ "" := by
  rcases s with ⟨l⟩
  intro h
  have h2 : '$' :: l = ([] : List Char) := congrArg String.data h
  simp at h2

theorem strEmptyAppend (s : String) : "" ++ s = s := by
  rcases s with ⟨l⟩
  rfl

theorem mem_emListeners_emitOn (st : EmState) (e : String) (f : Cb) :
    f ∈ emListeners (emitOn st e f) e := by
  simp [emListeners, emitOn, List.filter_append]

/-- Claim C7 (amended: the operation-kind string must be non-empty): for a
non-empty operation-kind `s` that does not start with `$`, the arguments `s`
and `'$' + s` address the same composite key `k + '$' + s`, uniformly across
`on`, `once`, `off`, `listeners` and `hasListeners`; in particular a listener
registered via `on(k, '$'+s, f)` is returned by `listeners(k, s)`. -/
theorem c7_namespacing_uniform (k s : String) (st : EmState) (f : Cb)
    (hne : s ≠ "") (hd : s.data.head? ≠ some '$') :
    docOn st k (some s) f = emitOn st (k ++ "$" ++ s) f ∧
    docOn st k (some ("$" ++ s)) f = emitOn st (k ++ "$" ++ s) f ∧
    docOnce st k (some s) f = emitOnce st (k ++ "$" ++ s) f ∧
    docOnce st k (some ("$" ++ s)) f = emitOnce st (k ++ "$" ++ s) f ∧
    docOff st k (some s) f = emitOff st (k ++ "$" ++ s) f ∧
    docOff st k (some ("$" ++ s)) f = emitOff st (k ++ "$" ++ s) f ∧
    docListeners st k (some s) = emListeners st (k ++ "$" ++ s) ∧
    docListeners st k (some ("$" ++ s)) = emListeners st (k ++ "$" ++ s) ∧
    docHasListeners st k (some s) = emHasListeners st (k ++ "$" ++ s) ∧
    docHasListeners st k (some ("$" ++ s)) = emHasListeners st (k ++ "$" ++ s) ∧
    f ∈ docListeners (docOn st k (some ("$" ++ s)) f) k (some s) := by
  have h1 : normalizeOp s = s := normalizeOp_no_dollar s hd
  have h2 : normalizeOp ("$" ++ s) = s := normalizeOp_dollar s
  have h3 : ("$" ++ s) ≠ "" := dollar_append_ne_empty s
  refine ⟨?_, ?_, ?_, ?_, ?_, ?_, ?_, ?_, ?_, ?_, ?_⟩ <;>
    simp [docOn, docOnce, docOff, docListeners, docHasListeners, compositeKey,
      h1, h2, h3, hne, mem_emListeners_emitOn]

/-- Claim C7 counterexample: the claim as stated quantifies over every
operation-kind string not starting with `$`, which includes the empty string.
With `s = ''`, `on` forms the composite key `k$` (`'string' == type(op)`),
but `listeners`' `if (op)` truthiness guard treats `''` as absent and reads
the plain key `k`, so the registered listener is not returned. -/
theorem c7_empty_op_counterexample :
    ("" : String).data.head? ≠ some '$' ∧
    docOn [] "k" (some "") (Cb.user 0) = emitOn [] ("k" ++ "$" ++ "") (Cb.user 0) ∧
    docListeners (docOn [] "k" (some "") (Cb.user 0)) "k" (some "") = [] ∧
    Cb.user 0 ∉ docListeners (docOn [] "k" (some "") (Cb.user 0)) "k" (some "") := by
  exact ⟨by decide, rfl, rfl, by decide⟩

theorem c7_namespacing_uniform_witness :
    docOn [] "k" (some "set") (Cb.user 0) = emitOn [] ("k" ++ "$" ++ "set") (Cb.user 0) :=
  (c7_namespacing_uniform "k" "set" [] (Cb.user 0) (by decide) (by decide)).1

def baseSocket : Socket := ⟨false, "localhost", 3000⟩

def freshDoc : Document := mkDocument baseSocket (fun _ => JSVal.null)

def loadedDoc : Document := { freshDoc with readyState := "loaded" }

/-- Claim C2: `ready(fn)` on a `loaded` document is claimed to schedule `fn`
asynchronously exactly once.  In fact the guard `'loaded' ==
this.$readyState` compares the string against the accessor function itself
(whose string coercion is its source text), which is never equal, so even on
a `loaded` document nothing is handed to `setTimeout`; `fn` is instead parked
as a one-shot `$state:loaded` listener — an event that already fired and is
not re-emitted — and is never invoked. -/
theorem c2_ready_guard_code_bug :
    strEqFn "loaded" readyStateAccessorSrc = false ∧
    loadedDoc.readyState = "loaded" ∧
    (ready loadedDoc (Cb.user 0)).pending = [] ∧
    (ready loadedDoc (Cb.user 0)).listenersSt = [⟨"$state:loaded", Cb.user 0, true⟩] := by
  exact ⟨by decide, rfl, rfl, rfl⟩

def loadingOutcome : LoadOutcome := load false 7 1 freshDoc "/todos" none

/-- Claim C3: `destroy()` while `loading` is claimed not to raise.  In fact
on a freshly loaded document (readyState `loading`, request stored in
`$xhr`) the guard reads `this.xhr.abort`, and the property `xhr` was never
assigned, so the member access on `undefined` throws a TypeError; the
pending-request reference `$xhr` is never cleared. -/
theorem c3_destroy_while_loading_code_bug :
    loadingOutcome.doc.readyState = "loading" ∧
    loadingOutcome.doc.xhrField = none ∧
    loadingOutcome.doc.dollarXhr = some 1 ∧
    (destroy loadingOutcome.doc).err = some JsError.typeError ∧
    (destroy loadingOutcome.doc).doc.readyState = "loading" ∧
    (destroy loadingOutcome.doc).doc.dollarXhr = some 1 := by
  exact ⟨rfl, rfl, rfl, rfl, rfl, rfl⟩

/-- Claim C4 counterexample: with a query string already present the fetch
URL is claimed to carry the suffix `&my=1&t=<now>`; the source appends
`my=1&t=<now>` with no separator at all (`~url.indexOf('?') ? '' : '?'`). -/
theorem c4_query_suffix_counterexample :
    (load false 7 1 freshDoc "/todos?a=1" none).fetchUrl = some "/todos?a=1my=1&t=7" ∧
    "/todos?a=1my=1&t=7" ≠ "/todos?a=1&my=1&t=7" := by
  exact ⟨rfl, by decide⟩

/-- Claim C4 (amended: no `&` separator): when the URL already contains `?`
the fetch URL is the URL directly followed by `my=1&t=<epoch-millis>`; when
it does not, `?my=1&t=<epoch-millis>` is appended. -/
theorem c4_query_suffix_amended (d : Document) (url : String) (now reqId : Nat)
    (h : d.readyState = "unloaded") :
    (url.data.contains '?' = true →
      (load false now reqId d url none).fetchUrl
        = some (url ++ "my=1&t=" ++ toString now)) ∧
    (url.data.contains '?' = false →
      (load false now reqId d url none).fetchUrl
        = some (url ++ "?my=1&t=" ++ toString now)) := by
  constructor <;> intro hc
  · have hm : '?' ∈ url.data := by simpa using hc
    simp [load, h, hm, strEmptyAppend]
  · have hm : ¬ '?' ∈ url.data := by simpa using hc
    simp [load, h, hm]
    rw [strAppendAssoc url "?" "my=1&t="]
    rfl

theorem c4_query_suffix_witness :
    (load false 7 1 freshDoc "/todos" none).fetchUrl
      = some ("/todos" ++ "?my=1&t=" ++ toString 7) :=
  (c4_query_suffix_amended freshDoc "/todos" 7 1 rfl).2 (by decide)

/-- Claim C8: `load` throws exactly when the state is not `unloaded`, and
`destroy` throws when the state is `unloaded` or `unloading`; in these
throwing cases the document is returned untouched (no field was assigned
before the throw) and no fetch or unsubscription is issued. -/
theorem c8_invalid_state_errors (d : Document) (url : String) (now reqId : Nat)
    (isNode : Bool) (f : Option Cb) :
    ((load isNode now reqId d url f).err.isSome ↔ d.readyState ≠ "unloaded") ∧
    (d.readyState ≠ "unloaded" →
      (load isNode now reqId d url f).doc = d ∧
      (load isNode now reqId d url f).fetchUrl = none) ∧
    (d.readyState = "unloaded" ∨ d.readyState = "unloading" →
      (destroy d).err.isSome ∧ (destroy d).doc = d ∧ (destroy d).unsubCall = none) := by
  refine ⟨?_, ?_, ?_⟩
  · by_cases h : d.readyState = "unloaded" <;> simp [load, h]
  · intro h
    simp [load, h]
  · rintro (h | h) <;> simp [destroy, h]

theorem c8_invalid_state_errors_witness :
    (destroy freshDoc).err.isSome = true ∧ (destroy freshDoc).doc = freshDoc := by
  have h := (c8_invalid_state_errors freshDoc "/x" 0 0 false none).2.2 (Or.inl rfl)
  exact ⟨h.1, h.2.1⟩

/-- Claim C10: `each(key, fn)` defers its body through `get`/`ready` (here:
the one-shot `$state:loaded` registration of the wrapper); when the body runs
with the value `v` read at `key`, it registers `fn` as a persistent listener
on the composite key `key$push` for every `v`, and invokes `fn` once per
element, in order, exactly when `v` is an array. -/
theorem c10_each_registration (d : Document) (key : String) (f : Nat) :
    (each d key f).listenersSt
      = emitOnce d.listenersSt "$state:loaded" (Cb.getWrap key (Cb.eachBody key f)) ∧
    (∀ v, ((runCb d (Cb.eachBody key f) v).1).listenersSt
      = emitOn d.listenersSt (key ++ "$push") (Cb.user f)) ∧
    (∀ l, (runCb d (Cb.eachBody key f) (JSVal.arr l)).2 = l.map (fun x => (f, x))) ∧
    (∀ v, isArr v = false → (runCb d (Cb.eachBody key f) v).2 = []) := by
  have hkey : compositeKey key "push" = key ++ "$push" := by
    show key ++ "$" ++ normalizeOp "push" = key ++ "$push"
    rw [show normalizeOp "push" = "push" from rfl, strAppendAssoc]
    rfl
  refine ⟨rfl, ?_, ?_, ?_⟩
  · intro v
    simp [runCb, docOn, hkey]
  · intro l
    simp [runCb]
  · intro v hv
    cases v <;> simp_all [runCb, isArr]

theorem c10_each_registration_witness :
    (runCb freshDoc (Cb.eachBody "items" 3) JSVal.null).2 = [] :=
  (c10_each_registration freshDoc "items" 3).2.2.2 JSVal.null rfl

end MydbClient
